import Mathlib

/-!
Verification development for the friend-recommendation service.

The definitions below are a shallow embedding of the computation core of the
repository:

* `app/backend/logic/recomendation_model.py` — base-file parsing
  (`create_dataframe_for_N_recommendation`), the friends-of-friends engine
  (`get_N_recommendation`) and the demographic scorer (`get_probability`);
* `app/backend/api/models/handlers.py` — the result formatter inside
  `calculate_recomendations`.

Spark DataFrames are embedded as Lean lists of structures, one structure per
DataFrame schema appearing in the pipeline; each pipeline stage (explode, join,
filter, groupBy/agg, window/row_number, withColumn) becomes a list function.
Python `int` values are embedded as `Int`, the float score as `ℚ`, SQL `NULL`
(arising from the left joins) as `Option`/three-valued logic.  Text lines are
embedded as `List Char`.
-/

namespace FriendRec

/-! ## Base-file parsing: `create_dataframe_for_N_recommendation`

The source reads a text file, splits each line at the first space
(`line.split(" ", 1)`), parses the head as `int`, splits the tail at every
comma and parses each piece as `int` (Python `int` strips surrounding spaces
and accepts an optional sign).  Any failure (no space in the line, a
non-integer token) raises, which we embed as `Option`. -/

/-- Row of the `["user", "friends"]` DataFrame built at line 31 of
`recomendation_model.py`. -/
structure FriendRow where
  user : Int
  friends : List Int
deriving DecidableEq, Repr

/-- Embedding of Python `s.split(sep, 1)`: split at the first occurrence of
`sep`, returning `none` when `sep` does not occur (in the source that case
makes `pair[1]` raise `IndexError`). -/
def splitFirst (sep : Char) : List Char → Option (List Char × List Char)
  | [] => none
  | c :: cs =>
      if c = sep then some ([], cs)
      else (splitFirst sep cs).map fun p => (c :: p.1, p.2)

/-- Embedding of Python `s.split(sep)` for a one-character separator: split at
every occurrence, keeping empty segments (so `"".split(",") = [""]`). -/
def splitAll (sep : Char) : List Char → List (List Char)
  | [] => [[]]
  | c :: cs =>
      if c = sep then [] :: splitAll sep cs
      else
        match splitAll sep cs with
        | [] => [[c]]
        | g :: gs => (c :: g) :: gs

/-- Numeric value of a decimal digit character, `none` on a non-digit. -/
def digitVal (c : Char) : Option Nat :=
  if '0' ≤ c ∧ c ≤ '9' then some (c.toNat - '0'.toNat) else none

/-- Parse a nonempty all-digit string as a natural number. -/
def digitsNat (ds : List Char) : Option Nat :=
  match ds with
  | [] => none
  | _ => ds.foldlM (fun acc c => (digitVal c).map fun d => acc * 10 + d) 0

/-- Drop leading spaces (Python `int` ignores surrounding whitespace; the
input files use plain spaces). -/
def dropSpaces (cs : List Char) : List Char := cs.dropWhile fun c => c = ' '

/-- Embedding of Python `int(s)`: strip surrounding spaces, accept an optional
sign followed by a nonempty digit string, fail (`ValueError`) otherwise. -/
def parsePyInt (cs : List Char) : Option Int :=
  match (dropSpaces ((dropSpaces cs.reverse).reverse)) with
  | '-' :: ds => (digitsNat ds).map fun n => -(n : Int)
  | '+' :: ds => (digitsNat ds).map fun n => (n : Int)
  | ds => (digitsNat ds).map fun n => (n : Int)

/-- Embedding of the per-line lambda at lines 26–28 of
`recomendation_model.py`: `line.split(" ", 1)` then
`(int(pair[0]), list(map(int, pair[1].split(","))))`. -/
def parseLine (cs : List Char) : Option FriendRow :=
  match splitFirst ' ' cs with
  | none => none
  | some (a, b) =>
      match parsePyInt a, (splitAll ',' b).mapM parsePyInt with
      | some u, some fs => some ⟨u, fs⟩
      | _, _ => none

/-- Embedding of `create_dataframe_for_N_recommendation` (lines 23–32): every
line is parsed independently and contributes exactly one row of the resulting
DataFrame; there is no cross-line validation of any kind. -/
def create_dataframe_for_N_recommendation (lines : List (List Char)) :
    Option (List FriendRow) :=
  lines.mapM parseLine

/-! ## Friends-of-friends engine: `get_N_recommendation` (lines 99–131) -/

/-- Row of `friends_exploded` (line 103): one row per (user, friend) pair,
keeping the full friend list. -/
structure ExpRow where
  user : Int
  friends : List Int
  friend : Int
deriving DecidableEq, Repr

/-- Row of the self-join `friends_of_friends` (lines 105–114). -/
structure FofRow where
  user : Int
  friends : List Int
  friend : Int
  fof : Int
deriving DecidableEq, Repr

/-- Row of the aggregate `friend_recommendations` (lines 121–123). -/
structure AggRow where
  user : Int
  fof : Int
  common_friends : Int
deriving DecidableEq, Repr

/-- Row of the final `top_n_recommendations` (line 129). -/
structure RankedRow where
  user : Int
  fof : Int
  rank : Int
deriving DecidableEq, Repr

/-- `df.withColumn("friend", F.explode(F.col("friends")))` (line 103). -/
def friends_exploded (rows : List FriendRow) : List ExpRow :=
  rows.flatMap fun r => r.friends.map fun f => ⟨r.user, r.friends, f⟩

/-- The self-join on `df1.friend == df2.user` (lines 105–114). -/
def friends_of_friends (rows : List FriendRow) : List FofRow :=
  (friends_exploded rows).flatMap fun a =>
    ((friends_exploded rows).filter fun b => a.friend == b.user).map fun b =>
      ⟨a.user, a.friends, a.friend, b.friend⟩

/-- The two filters `user != fof` and `~array_contains(friends, fof)`
(lines 116–119). -/
def recommendations (rows : List FriendRow) : List FofRow :=
  ((friends_of_friends rows).filter fun q => q.user != q.fof).filter fun q =>
    !(q.friends.contains q.fof)

/-- The distinct `(user, fof)` keys of a `groupBy("user", "fof")`. -/
def groupKeys (l : List FofRow) : List (Int × Int) :=
  (l.map fun q => (q.user, q.fof)).dedup

/-- The aggregate `F.sum("friend")` over one group (line 122): the source sums
the identity values of the intermediate friends. -/
def common_friends (l : List FofRow) (u c : Int) : Int :=
  ((l.filter fun q => q.user == u && q.fof == c).map fun q => q.friend).sum

/-- `recommendations.groupBy("user", "fof").agg(F.sum("friend"))`
(lines 121–123). -/
def friend_recommendations (rows : List FriendRow) : List AggRow :=
  (groupKeys (recommendations rows)).map fun k =>
    ⟨k.1, k.2, common_friends (recommendations rows) k.1 k.2⟩

/-- Total order embedding `orderBy(F.col("common_friends").desc())` (line 125).
The source specifies no tie order; for an executable embedding ties are laid
out by ascending `fof`, and no confirmed theorem below depends on the order of
rows whose `common_friends` agree. -/
def aggLE (a b : AggRow) : Prop :=
  b.common_friends < a.common_friends ∨
    (a.common_friends = b.common_friends ∧ a.fof ≤ b.fof)

instance : DecidableRel aggLE := fun a b => by
  unfold aggLE; exact inferInstance

/-- `F.row_number().over(window)` (lines 125–128): consecutive ranks starting
from `k` along the sorted partition. -/
def withRanks : List AggRow → Int → List RankedRow
  | [], _ => []
  | a :: t, k => ⟨a.user, a.fof, k⟩ :: withRanks t (k + 1)

/-- The distinct partition keys of `Window.partitionBy("user")`. -/
def userKeys (l : List AggRow) : List Int :=
  (l.map fun a => a.user).dedup

/-- The windowed ranking plus `filter(rank <= N)` and the final projection
(lines 125–129). -/
def top_n_recommendations (rows : List FriendRow) (N : Int) : List RankedRow :=
  (userKeys (friend_recommendations rows)).flatMap fun u =>
    (withRanks
        (((friend_recommendations rows).filter fun a => a.user == u).insertionSort aggLE)
        1).filter fun r => decide (r.rank ≤ N)

/-- Embedding of the whole of `get_N_recommendation` (lines 99–131): parse the
base file, then run the ranking pipeline.  The function performs no check on
`N` whatsoever. -/
def get_N_recommendation (lines : List (List Char)) (N : Int) :
    Option (List RankedRow) :=
  (create_dataframe_for_N_recommendation lines).map fun rows =>
    top_n_recommendations rows N

/-- The friend list the relation declares for `u`: the `friends` field of the
(unique) row keyed by `u`, empty when `u` has no row. -/
def friendsOf (rows : List FriendRow) (u : Int) : List Int :=
  ((rows.find? fun r => r.user == u).map fun r => r.friends).getD []

/-- Common-friend count as the specification defines it
(`|\x7bF : F ∈ friends(U) ∧ C ∈ friends(F)\x7d|`), stated over the same parsed
relation; used only to compare the source aggregation against the spec. -/
def specCommonFriendCount (rows : List FriendRow) (u c : Int) : Nat :=
  ((friendsOf rows u).dedup.filter fun f => (friendsOf rows f).contains c).length

/-! ## Demographic scorer: `get_probability` (lines 134–248)

The source first parses the secondary file into the demographic DataFrame
(`create_dataframe_for_probability`, one row of five integers per line); the
claims below are about the join and scoring stages, so the scorer is embedded
over the already-parsed demographic rows.  The two `"left"` joins can leave
the demographic columns `NULL`, so those columns are embedded as `Option Int`,
and the `F.when` conditions are evaluated in SQL three-valued logic: a
condition involving `NULL` is not true, so the `when` falls through. -/

/-- Row of the DataFrame produced by `create_dataframe_for_probability`
(lines 71–73): `["ID", "Пол", "Возраст", "Город", "Высшее образование"]`. -/
structure DemoRow where
  ID : Int
  gender : Int
  age : Int
  city : Int
  education : Int
deriving DecidableEq, Repr

/-- Result of the first left join (lines 170–181): the user's demographic
columns, renamed `user_*`, possibly `NULL`. -/
structure HalfRow where
  user : Int
  fof : Int
  rank : Int
  user_gender : Option Int
  user_age : Option Int
  user_city : Option Int
  user_education : Option Int
deriving DecidableEq, Repr

/-- Result of the second left join (lines 183–194): both demographic column
groups, the candidate's renamed `potential_friend_*`. -/
structure JoinedRow where
  user : Int
  fof : Int
  rank : Int
  user_gender : Option Int
  user_age : Option Int
  user_city : Option Int
  user_education : Option Int
  potential_friend_gender : Option Int
  potential_friend_age : Option Int
  potential_friend_city : Option Int
  potential_friend_education : Option Int
deriving DecidableEq, Repr

/-- A `JoinedRow` plus the computed `probability` column (lines 196–246). -/
structure ScoredRow where
  user : Int
  fof : Int
  rank : Int
  user_gender : Option Int
  user_age : Option Int
  user_city : Option Int
  user_education : Option Int
  potential_friend_gender : Option Int
  potential_friend_age : Option Int
  potential_friend_city : Option Int
  potential_friend_education : Option Int
  probability : ℚ
deriving DecidableEq, Repr

def mkScored (j : JoinedRow) (p : ℚ) : ScoredRow :=
  ⟨j.user, j.fof, j.rank, j.user_gender, j.user_age, j.user_city,
    j.user_education, j.potential_friend_gender, j.potential_friend_age,
    j.potential_friend_city, j.potential_friend_education, p⟩

def ScoredRow.toJoined (s : ScoredRow) : JoinedRow :=
  ⟨s.user, s.fof, s.rank, s.user_gender, s.user_age, s.user_city,
    s.user_education, s.potential_friend_gender, s.potential_friend_age,
    s.potential_friend_city, s.potential_friend_education⟩

/-- SQL equality of two nullable integer columns. -/
def optEqInt (a b : Option Int) : Option Bool :=
  match a, b with
  | some x, some y => some (decide (x = y))
  | _, _ => none

/-- SQL subtraction of nullable integer columns. -/
def optSub (a b : Option Int) : Option Int :=
  match a, b with
  | some x, some y => some (x - y)
  | _, _ => none

/-- SQL `F.abs` on a nullable integer column. -/
def optAbs (a : Option Int) : Option Int := a.map fun x => |x|

/-- SQL `<` against a non-null literal. -/
def optLtN (a : Option Int) (c : Int) : Option Bool :=
  a.map fun x => decide (x < c)

/-- SQL `>=` against a non-null literal. -/
def optGeN (a : Option Int) (c : Int) : Option Bool :=
  a.map fun x => decide (c ≤ x)

/-- SQL three-valued conjunction. -/
def sqlAnd (a b : Option Bool) : Option Bool :=
  match a, b with
  | some false, _ => some false
  | _, some false => some false
  | some true, some true => some true
  | _, _ => none

/-- SQL three-valued disjunction. -/
def sqlOr (a b : Option Bool) : Option Bool :=
  match a, b with
  | some true, _ => some true
  | _, some true => some true
  | some false, some false => some false
  | _, _ => none

/-- `F.when` fires only when its condition is definitely true. -/
def isTrue (b : Option Bool) : Bool := b = some true

/-- First left join, `top_n_recommendations.user == additional_properties.ID`
(lines 170–181): a row with no matching demographic record survives with
`NULL` columns, a row with matching records gets one output row per match. -/
def joinUser (recs : List RankedRow) (demo : List DemoRow) : List HalfRow :=
  recs.flatMap fun r =>
    match demo.filter fun d => d.ID == r.user with
    | [] => [⟨r.user, r.fof, r.rank, none, none, none, none⟩]
    | ds => ds.map fun d =>
        ⟨r.user, r.fof, r.rank, some d.gender, some d.age, some d.city,
          some d.education⟩

/-- Second left join, `recommendations.fof == additional_properties.ID`
(lines 183–194). -/
def joinFof (hs : List HalfRow) (demo : List DemoRow) : List JoinedRow :=
  hs.flatMap fun h =>
    match demo.filter fun d => d.ID == h.fof with
    | [] => [⟨h.user, h.fof, h.rank, h.user_gender, h.user_age, h.user_city,
        h.user_education, none, none, none, none⟩]
    | ds => ds.map fun d =>
        ⟨h.user, h.fof, h.rank, h.user_gender, h.user_age, h.user_city,
          h.user_education, some d.gender, some d.age, some d.city,
          some d.education⟩

/-- First `withColumn("probability", ...)` (lines 196–201).  The source
compares `user_age` with `potential_friend_gender`. -/
def probability_gender (j : JoinedRow) : ℚ :=
  if isTrue (optEqInt j.user_age j.potential_friend_gender) then 3/10 else 1/10

/-- Age step (lines 203–218). -/
def step_age (j : JoinedRow) (p : ℚ) : ℚ :=
  if isTrue (optLtN (optAbs (optSub j.user_age j.potential_friend_age)) 5) then
    p + 4/10
  else if isTrue (optLtN (optAbs (optSub j.user_age j.potential_friend_age)) 10) then
    p + 2/10
  else if isTrue (optGeN (optAbs (optSub j.user_age j.potential_friend_age)) 10) then
    p - 2/10
  else p

/-- City step (lines 220–226). -/
def step_city (j : JoinedRow) (p : ℚ) : ℚ :=
  if isTrue (optEqInt j.user_city j.potential_friend_city) then p + 5/10 else p

/-- Education step (lines 228–239). -/
def step_education (j : JoinedRow) (p : ℚ) : ℚ :=
  if isTrue (sqlAnd (optEqInt j.user_education (some 1))
      (optEqInt j.potential_friend_education (some 1))) then p + 3/10
  else if isTrue (sqlOr (optEqInt j.user_education (some 1))
      (optEqInt j.potential_friend_education (some 1))) then p + 1/10
  else p

/-- Final clamping step (lines 241–246). -/
def step_clamp (p : ℚ) : ℚ :=
  if 1 < p then 1 else if p < 0 then 0 else p

/-- Embedding of the join and scoring stages of `get_probability`
(lines 170–248). -/
def get_probability (recs : List RankedRow) (demo : List DemoRow) :
    List ScoredRow :=
  (joinFof (joinUser recs demo) demo).map fun j =>
    mkScored j
      (step_clamp (step_education j (step_city j (step_age j (probability_gender j)))))

/-- Contribution of the age rule alone (used to state the additive
decomposition of the score). -/
def ageTerm (j : JoinedRow) : ℚ :=
  if isTrue (optLtN (optAbs (optSub j.user_age j.potential_friend_age)) 5) then
    4/10
  else if isTrue (optLtN (optAbs (optSub j.user_age j.potential_friend_age)) 10) then
    2/10
  else if isTrue (optGeN (optAbs (optSub j.user_age j.potential_friend_age)) 10) then
    -(2/10)
  else 0

/-- Contribution of the city rule alone. -/
def cityTerm (j : JoinedRow) : ℚ :=
  if isTrue (optEqInt j.user_city j.potential_friend_city) then 5/10 else 0

/-- Contribution of the education rule alone. -/
def educationTerm (j : JoinedRow) : ℚ :=
  if isTrue (sqlAnd (optEqInt j.user_education (some 1))
      (optEqInt j.potential_friend_education (some 1))) then 3/10
  else if isTrue (sqlOr (optEqInt j.user_education (some 1))
      (optEqInt j.potential_friend_education (some 1))) then 1/10
  else 0

/-- The pre-clamp score: additive sum of the four rule contributions. -/
def preClampScore (j : JoinedRow) : ℚ :=
  probability_gender j + ageTerm j + cityTerm j + educationTerm j

/-- Gender term as the specification words it: compare the user's gender with
the candidate's gender; used only to compare the source against the spec. -/
def specGenderTerm (j : JoinedRow) : ℚ :=
  if isTrue (optEqInt j.user_gender j.potential_friend_gender) then 3/10 else 1/10

/-! ## Result formatter: `calculate_recomendations` (handlers.py, lines 58–64)

Each collected row is written as one line, `f"{user} {fof}\n"` without the
secondary file and `f"{user} {fof}, {probability}\n"` with it.  A line is
embedded as the `List Char` written before the terminating newline; Python
`str` of an `int` is its decimal representation, and `str` of the score is
embedded for the tenth-valued scores the rules produce. -/

/-- Decimal digits of a natural number, least significant first.  The `fuel`
argument makes the recursion structural; `n + 1` units always suffice since
the argument shrinks by a factor of ten each step. -/
def natDigitsRev : Nat → Nat → List Char
  | 0, _ => []
  | fuel + 1, n =>
      if n < 10 then [Nat.digitChar n]
      else Nat.digitChar (n % 10) :: natDigitsRev fuel (n / 10)

/-- Embedding of Python `str(n)` for a natural number. -/
def pyNatStr (n : Nat) : List Char := (natDigitsRev (n + 1) n).reverse

/-- Embedding of Python `str(i)` for an `int`. -/
def pyIntStr (i : Int) : List Char :=
  if i < 0 then '-' :: pyNatStr i.natAbs else pyNatStr i.natAbs

/-- Embedding of Python `str` of the score: the clamped scores are
non-negative multiples of one tenth, printed as `"<whole>.<tenth>"`. -/
def tenthsStr (q : ℚ) : List Char :=
  pyIntStr (q.num * 10 / (q.den : Int) / 10) ++
    '.' :: pyIntStr (q.num * 10 / (q.den : Int) % 10)

/-- One output line in no-probability mode (handlers.py, line 63). -/
def formatNoProb (r : RankedRow) : List Char :=
  pyIntStr r.user ++ ' ' :: pyIntStr r.fof

/-- One output line in probability mode (handlers.py, line 61). -/
def formatProb (s : ScoredRow) : List Char :=
  pyIntStr s.user ++ ' ' :: pyIntStr s.fof ++ ',' :: ' ' :: tenthsStr s.probability

/-- The sequence of lines written by the result loop without the secondary
file (handlers.py, lines 58–64): one line per collected row, nothing else. -/
def result_lines_no_secondary (rows : List RankedRow) : List (List Char) :=
  rows.map formatNoProb

/-- The sequence of lines written by the result loop with the secondary file
(handlers.py, lines 58–64). -/
def result_lines_secondary (rows : List ScoredRow) : List (List Char) :=
  rows.map formatProb

/-! ## Helper lemmas: membership through the engine pipeline -/

lemma mem_friends_exploded {rows : List FriendRow} {a : ExpRow}
    (h : a ∈ friends_exploded rows) :
    ∃ r ∈ rows, a.user = r.user ∧ a.friends = r.friends := by
  rcases List.mem_flatMap.mp h with ⟨r, hr, hm⟩
  rcases List.mem_map.mp hm with ⟨f, _, rfl⟩
  exact ⟨r, hr, rfl, rfl⟩

lemma mem_friends_of_friends {rows : List FriendRow} {q : FofRow}
    (h : q ∈ friends_of_friends rows) :
    ∃ r ∈ rows, q.user = r.user ∧ q.friends = r.friends := by
  rcases List.mem_flatMap.mp h with ⟨a, ha, hm⟩
  rcases List.mem_map.mp hm with ⟨b, _, rfl⟩
  rcases mem_friends_exploded ha with ⟨r, hr, h1, h2⟩
  exact ⟨r, hr, h1, h2⟩

lemma mem_recommendations {rows : List FriendRow} {q : FofRow}
    (h : q ∈ recommendations rows) :
    q ∈ friends_of_friends rows ∧ q.user ≠ q.fof ∧ q.fof ∉ q.friends := by
  rcases List.mem_filter.mp h with ⟨h1, h2⟩
  rcases List.mem_filter.mp h1 with ⟨h3, h4⟩
  refine ⟨h3, by simpa using h4, ?_⟩
  simpa using h2

lemma mem_friend_recommendations {rows : List FriendRow} {x : AggRow}
    (h : x ∈ friend_recommendations rows) :
    ∃ q ∈ recommendations rows, x.user = q.user ∧ x.fof = q.fof := by
  rcases List.mem_map.mp h with ⟨k, hk, rfl⟩
  rcases List.mem_map.mp (List.mem_dedup.mp hk) with ⟨q, hq, rfl⟩
  exact ⟨q, hq, rfl, rfl⟩

lemma mem_withRanks {l : List AggRow} {k : Int} {y : RankedRow}
    (h : y ∈ withRanks l k) :
    (∃ a ∈ l, y.user = a.user ∧ y.fof = a.fof) ∧ k ≤ y.rank := by
  induction l generalizing k with
  | nil => simp [withRanks] at h
  | cons a t ih =>
      rw [withRanks, List.mem_cons] at h
      rcases h with rfl | h
      · exact ⟨⟨a, List.mem_cons_self a t, rfl, rfl⟩, le_refl _⟩
      · rcases ih h with ⟨⟨b, hb, e1, e2⟩, hk⟩
        exact ⟨⟨b, List.mem_cons_of_mem a hb, e1, e2⟩, by omega⟩

lemma mem_top_n {rows : List FriendRow} {N : Int} {y : RankedRow}
    (h : y ∈ top_n_recommendations rows N) :
    (∃ x ∈ friend_recommendations rows, y.user = x.user ∧ y.fof = x.fof) ∧
      1 ≤ y.rank ∧ y.rank ≤ N := by
  rcases List.mem_flatMap.mp h with ⟨u, _, hm⟩
  rcases List.mem_filter.mp hm with ⟨h1, h2⟩
  rcases mem_withRanks h1 with ⟨⟨a, ha, e1, e2⟩, hr⟩
  have ha2 : a ∈ (friend_recommendations rows).filter fun b => b.user == u :=
    List.mem_insertionSort aggLE |>.mp ha
  exact ⟨⟨a, (List.mem_filter.mp ha2).1, e1, e2⟩, hr, of_decide_eq_true h2⟩

lemma friendsOf_eq {rows : List FriendRow}
    (hn : (rows.map FriendRow.user).Nodup) {r : FriendRow} (hr : r ∈ rows) :
    friendsOf rows r.user = r.friends := by
  induction rows with
  | nil => cases hr
  | cons s t ih =>
      rcases List.mem_cons.mp hr with rfl | hr2
      · simp [friendsOf, List.find?_cons]
      · rw [List.map_cons, List.nodup_cons] at hn
        have hne : (s.user == r.user) = false := by
          simp only [beq_eq_false_iff_ne, ne_eq]
          exact fun e => hn.1 (e ▸ List.mem_map_of_mem FriendRow.user hr2)
        have := ih hn.2 hr2
        simpa [friendsOf, List.find?_cons, hne] using this

/-! ## Claims about the engine -/

/-- C1: the source aggregates `F.sum("friend")`, so the value recorded for a
pair is the sum of the identity values of the intermediate friends, not the
number of distinct intermediate friends.  On the relation
`{1: [5], 3: [5], 5: [1, 3]}` the pair `(1, 3)` is reachable through the
single common friend `5`, yet the aggregated value is `5`, while the
specification's count is `1`. -/
theorem c1_common_friend_count_is_id_sum :
    friend_recommendations [⟨1, [5]⟩, ⟨3, [5]⟩, ⟨5, [1, 3]⟩] =
        [⟨1, 3, 5⟩, ⟨3, 1, 5⟩] ∧
      specCommonFriendCount [⟨1, [5]⟩, ⟨3, [5]⟩, ⟨5, [1, 3]⟩] 1 3 = 1 ∧
      specCommonFriendCount [⟨1, [5]⟩, ⟨3, [5]⟩, ⟨5, [1, 3]⟩] 3 1 = 1 := by
  decide

/-- C3 counterexample: on the relation `{1: [2], 2: [1, 3], 3: [2]}` with
`N = 0` the source raises nothing and succeeds with an empty result; no
`InvalidParameterError` exists anywhere in the computation. -/
theorem c3_zero_N_returns_empty_counterexample :
    get_N_recommendation ["1 2".data, "2 1,3".data, "3 2".data] 0 = some [] := by
  decide

/-- C3 amended: for `N < 1` the computation does not fail; every ranked row is
removed by the `rank <= N` filter, so the result is empty. -/
theorem c3_amended_small_N_yields_empty_success
    (rows : List FriendRow) (N : Int) (hN : N < 1) :
    top_n_recommendations rows N = [] := by
  unfold top_n_recommendations
  rw [List.flatMap_eq_nil_iff]
  intro u _
  rw [List.filter_eq_nil_iff]
  intro y hy
  have h1 : (1 : Int) ≤ y.rank := (mem_withRanks hy).2
  simp only [decide_eq_true_iff]
  omega

theorem c3_amended_small_N_witness :
    (0 : Int) < 1 ∧ top_n_recommendations [⟨1, [2]⟩] 0 = [] :=
  ⟨by decide, c3_amended_small_N_yields_empty_success [⟨1, [2]⟩] 0 (by decide)⟩

/-- C4 counterexample: a base file whose two lines both carry the key `1`
parses without any error into two separate rows; no `FormatError` is raised
for duplicate keys. -/
theorem c4_duplicate_user_parses_counterexample :
    create_dataframe_for_N_recommendation ["1 2,3".data, "1 4".data] =
      some [⟨1, [2, 3]⟩, ⟨1, [4]⟩] := by
  decide

/-- C4 amended: parsing is strictly line-by-line — whenever it succeeds, every
input line contributes exactly one row, in order, so duplicate `UserId` keys
are neither detected, merged nor overwritten. -/
theorem c4_amended_parser_keeps_duplicate_lines
    (lines : List (List Char)) (rows : List FriendRow)
    (h : create_dataframe_for_N_recommendation lines = some rows) :
    rows.length = lines.length ∧
      ∀ i (hi : i < lines.length) (hj : i < rows.length),
        parseLine (lines.get ⟨i, hi⟩) = some (rows.get ⟨i, hj⟩) := by
  induction lines generalizing rows with
  | nil =>
      simp only [create_dataframe_for_N_recommendation, List.mapM_nil,
        Option.pure_def, Option.some.injEq] at h
      subst h
      exact ⟨rfl, fun i hi => absurd hi (by simp)⟩
  | cons c t ih =>
      unfold create_dataframe_for_N_recommendation at h ih
      rw [List.mapM_cons] at h
      cases hc : parseLine c with
      | none => rw [hc] at h; simp at h
      | some v =>
          rw [hc] at h
          cases ht : t.mapM parseLine with
          | none => rw [ht] at h; simp at h
          | some vs =>
              rw [ht] at h
              simp only [Option.pure_def, Option.bind_eq_bind, Option.some_bind,
                Option.some.injEq] at h
              subst h
              rcases ih vs ht with ⟨hl, hg⟩
              refine ⟨by simp [hl], ?_⟩
              intro i hi hj
              cases i with
              | zero => simpa using hc
              | succ n =>
                  simpa using hg n (by simpa using hi) (by simpa using hj)

theorem c4_amended_parser_witness :
    create_dataframe_for_N_recommendation ["1 2".data, "1 3".data] =
        some [⟨1, [2]⟩, ⟨1, [3]⟩] ∧
      ([⟨1, [2]⟩, ⟨1, [3]⟩] : List FriendRow).length =
        (["1 2".data, "1 3".data]).length :=
  ⟨by decide, (c4_amended_parser_keeps_duplicate_lines _ _ (by decide)).1⟩

/-- C5: over a relation with one line per user, every emitted recommendation
row has a candidate distinct from the user and not among the user's declared
friends — the two filters at lines 116–119 guarantee both invariants. -/
theorem c5_candidates_not_self_not_friends
    (rows : List FriendRow) (N : Int)
    (hn : (rows.map FriendRow.user).Nodup) :
    ∀ y ∈ top_n_recommendations rows N,
      y.user ≠ y.fof ∧ y.fof ∉ friendsOf rows y.user := by
  intro y hy
  rcases mem_top_n hy with ⟨⟨x, hx, e1, e2⟩, _, _⟩
  rcases mem_friend_recommendations hx with ⟨q, hq, f1, f2⟩
  rcases mem_recommendations hq with ⟨hqf, hne, hnm⟩
  rcases mem_friends_of_friends hqf with ⟨r, hr, g1, g2⟩
  constructor
  · rw [e1, e2, f1, f2]; exact hne
  · rw [e1, e2, f1, f2, g1, friendsOf_eq hn hr, ← g2]; exact hnm

theorem c5_candidates_witness :
    (([⟨1, [2]⟩, ⟨2, [1, 3]⟩, ⟨3, [2]⟩] : List FriendRow).map
        FriendRow.user).Nodup ∧
      (⟨1, 3, 1⟩ : RankedRow) ∈
        top_n_recommendations [⟨1, [2]⟩, ⟨2, [1, 3]⟩, ⟨3, [2]⟩] 1 ∧
      ((1 : Int) ≠ 3 ∧
        (3 : Int) ∉ friendsOf [⟨1, [2]⟩, ⟨2, [1, 3]⟩, ⟨3, [2]⟩] 1) :=
  ⟨by decide, by decide,
    c5_candidates_not_self_not_friends [⟨1, [2]⟩, ⟨2, [1, 3]⟩, ⟨3, [2]⟩] 1
      (by decide) ⟨1, 3, 1⟩ (by decide)⟩

/-! ## Helper lemmas: the scorer -/

/-- The sequential `withColumn` chain accumulates exactly the sum of the four
independent rule contributions. -/
lemma steps_eq_preClampScore (j : JoinedRow) :
    step_education j (step_city j (step_age j (probability_gender j))) =
      preClampScore j := by
  unfold preClampScore step_education step_city step_age ageTerm cityTerm
    educationTerm probability_gender
  split_ifs <;> ring

lemma mem_get_probability {recs : List RankedRow} {demo : List DemoRow}
    {s : ScoredRow} (h : s ∈ get_probability recs demo) :
    ∃ j ∈ joinFof (joinUser recs demo) demo,
      s = mkScored j (step_clamp (preClampScore j)) := by
  rcases List.mem_map.mp h with ⟨j, hj, rfl⟩
  exact ⟨j, hj, by rw [steps_eq_preClampScore]⟩

lemma step_clamp_of_gt {p : ℚ} (h : 1 < p) : step_clamp p = 1 := by
  unfold step_clamp
  rw [if_pos h]

lemma step_clamp_of_neg {p : ℚ} (h : p < 0) : step_clamp p = 0 := by
  unfold step_clamp
  rw [if_neg (by linarith), if_pos h]

lemma step_clamp_bounds (p : ℚ) : 0 ≤ step_clamp p ∧ step_clamp p ≤ 1 := by
  unfold step_clamp
  split_ifs <;> constructor <;> linarith

lemma filter_ID_length_le_one {demo : List DemoRow}
    (hn : (demo.map DemoRow.ID).Nodup) (u : Int) :
    (demo.filter fun d => d.ID == u).length ≤ 1 := by
  induction demo with
  | nil => simp
  | cons d t ih =>
      rw [List.map_cons, List.nodup_cons] at hn
      by_cases hd : d.ID = u
      · have ht : t.filter (fun x => x.ID == u) = [] := by
          rw [List.filter_eq_nil_iff]
          intro x hx hbx
          apply hn.1
          have hxu : x.ID = u := by simpa using hbx
          rw [hd, ← hxu]
          exact List.mem_map_of_mem DemoRow.ID hx
        simp [List.filter_cons, hd, ht]
      · simpa [List.filter_cons, hd] using ih hn.2

lemma filter_ID_nil_or_singleton {demo : List DemoRow}
    (hn : (demo.map DemoRow.ID).Nodup) (u : Int) :
    (demo.filter fun d => d.ID == u) = [] ∨
      ∃ d, (demo.filter fun d => d.ID == u) = [d] := by
  have hlen := filter_ID_length_le_one hn u
  rcases hl : demo.filter fun d => d.ID == u with _ | ⟨d, t⟩
  · exact Or.inl hl
  · right
    rw [hl] at hlen
    have ht : t = [] := by
      rw [List.length_cons] at hlen
      exact List.eq_nil_of_length_eq_zero (by omega)
    exact ⟨d, by rw [hl, ht]⟩

lemma joinUser_triples {recs : List RankedRow} {demo : List DemoRow}
    (hn : (demo.map DemoRow.ID).Nodup) :
    (joinUser recs demo).map (fun h => (h.user, h.fof, h.rank)) =
      recs.map fun r => (r.user, r.fof, r.rank) := by
  induction recs with
  | nil => rfl
  | cons r t ih =>
      rw [joinUser, List.flatMap_cons, List.map_append]
      rw [joinUser] at ih
      rw [ih, List.map_cons]
      rcases filter_ID_nil_or_singleton hn r.user with hf | ⟨d, hf⟩ <;>
        simp [hf]

lemma joinFof_triples {hs : List HalfRow} {demo : List DemoRow}
    (hn : (demo.map DemoRow.ID).Nodup) :
    (joinFof hs demo).map (fun j => (j.user, j.fof, j.rank)) =
      hs.map fun h => (h.user, h.fof, h.rank) := by
  induction hs with
  | nil => rfl
  | cons h t ih =>
      rw [joinFof, List.flatMap_cons, List.map_append]
      rw [joinFof] at ih
      rw [ih, List.map_cons]
      rcases filter_ID_nil_or_singleton hn h.fof with hf | ⟨d, hf⟩ <;>
        simp [hf]

/-! ## Claims about the scorer -/

/-- C2: the first `withColumn` compares `user_age` with
`potential_friend_gender`.  With user `1` (gender 0, age 25) and candidate `2`
(gender 0, age 25) the genders match, yet the gender contribution is `0.1`
because `25 ≠ 0`; the final score is `0.5` where gender-to-gender comparison
would give `0.7`. -/
theorem c2_gender_term_compares_age_to_gender :
    get_probability [⟨1, 2, 1⟩] [⟨1, 0, 25, 7, 0⟩, ⟨2, 0, 25, 8, 0⟩] =
        [⟨1, 2, 1, some 0, some 25, some 7, some 0, some 0, some 25, some 8,
          some 0, 1/2⟩] ∧
      probability_gender
          ⟨1, 2, 1, some 0, some 25, some 7, some 0, some 0, some 25, some 8,
            some 0⟩ = 1/10 ∧
      specGenderTerm
          ⟨1, 2, 1, some 0, some 25, some 7, some 0, some 0, some 25, some 8,
            some 0⟩ = 3/10 := by
  have hjoin :
      joinFof (joinUser [⟨1, 2, 1⟩] [⟨1, 0, 25, 7, 0⟩, ⟨2, 0, 25, 8, 0⟩])
          [⟨1, 0, 25, 7, 0⟩, ⟨2, 0, 25, 8, 0⟩] =
        [⟨1, 2, 1, some 0, some 25, some 7, some 0, some 0, some 25, some 8,
          some 0⟩] := by decide
  refine ⟨?_, rfl, rfl⟩
  rw [get_probability, hjoin, List.map_cons, List.map_nil,
    steps_eq_preClampScore]
  have hpre :
      preClampScore
          ⟨1, 2, 1, some 0, some 25, some 7, some 0, some 0, some 25, some 8,
            some 0⟩ = 1/2 := by
    have h0 :
        preClampScore
            ⟨1, 2, 1, some 0, some 25, some 7, some 0, some 0, some 25, some 8,
              some 0⟩ = 1/10 + 4/10 + 0 + 0 := rfl
    rw [h0]; norm_num
  rw [hpre]
  have hcl : step_clamp (1/2 : ℚ) = 1/2 := by norm_num [step_clamp]
  rw [hcl]
  rfl

/-- C7: every emitted probability is the clamp into `[0, 1]` of the additive
sum of the four rule contributions; a pre-clamp sum above `1` saturates to `1`
and one below `0` saturates to `0`. -/
theorem c7_probability_is_clamped_term_sum
    (recs : List RankedRow) (demo : List DemoRow) (s : ScoredRow)
    (h : s ∈ get_probability recs demo) :
    s.probability = step_clamp (preClampScore s.toJoined) ∧
      (1 < preClampScore s.toJoined → s.probability = 1) ∧
      (preClampScore s.toJoined < 0 → s.probability = 0) ∧
      0 ≤ s.probability ∧ s.probability ≤ 1 := by
  rcases mem_get_probability h with ⟨j, _, rfl⟩
  refine ⟨rfl, fun h1 => step_clamp_of_gt h1, fun h2 => step_clamp_of_neg h2,
    (step_clamp_bounds _).1, (step_clamp_bounds _).2⟩

theorem c7_probability_witness :
    ((⟨1, 2, 1, some 1, some 1, some 3, some 1, some 1, some 1, some 3, some 1,
          1⟩ : ScoredRow) ∈
        get_probability [⟨1, 2, 1⟩] [⟨1, 1, 1, 3, 1⟩, ⟨2, 1, 1, 3, 1⟩]) ∧
      1 < preClampScore
          (⟨1, 2, 1, some 1, some 1, some 3, some 1, some 1, some 1, some 3,
            some 1, 1⟩ : ScoredRow).toJoined ∧
      (⟨1, 2, 1, some 1, some 1, some 3, some 1, some 1, some 1, some 3, some 1,
          1⟩ : ScoredRow).probability = 1 := by
  have hjoin :
      joinFof (joinUser [⟨1, 2, 1⟩] [⟨1, 1, 1, 3, 1⟩, ⟨2, 1, 1, 3, 1⟩])
          [⟨1, 1, 1, 3, 1⟩, ⟨2, 1, 1, 3, 1⟩] =
        [⟨1, 2, 1, some 1, some 1, some 3, some 1, some 1, some 1, some 3,
          some 1⟩] := by decide
  have hpre :
      preClampScore
          ⟨1, 2, 1, some 1, some 1, some 3, some 1, some 1, some 1, some 3,
            some 1⟩ = 3/2 := by
    have h0 :
        preClampScore
            ⟨1, 2, 1, some 1, some 1, some 3, some 1, some 1, some 1, some 3,
              some 1⟩ = 3/10 + 4/10 + 5/10 + 3/10 := rfl
    rw [h0]; norm_num
  have hmem :
      (⟨1, 2, 1, some 1, some 1, some 3, some 1, some 1, some 1, some 3, some 1,
          1⟩ : ScoredRow) ∈
        get_probability [⟨1, 2, 1⟩] [⟨1, 1, 1, 3, 1⟩, ⟨2, 1, 1, 3, 1⟩] := by
    rw [get_probability, hjoin, List.map_cons, List.map_nil,
      steps_eq_preClampScore, hpre, step_clamp_of_gt (by norm_num)]
    exact List.mem_singleton.mpr rfl
  have h2 : (1 : ℚ) <
      preClampScore
        (⟨1, 2, 1, some 1, some 1, some 3, some 1, some 1, some 1, some 3,
          some 1, 1⟩ : ScoredRow).toJoined := by
    show (1 : ℚ) <
      preClampScore
        ⟨1, 2, 1, some 1, some 1, some 3, some 1, some 1, some 1, some 3,
          some 1⟩
    rw [hpre]
    norm_num
  exact ⟨hmem, h2, (c7_probability_is_clamped_term_sum _ _ _ hmem).2.1 h2⟩

/-- C8 counterexample: with an empty demographics mapping the single
recommendation row is still emitted, but its probability is the numerically
computed `0.1` (the gender `otherwise` branch), not a null marker. -/
theorem c8_missing_demo_numeric_probability_counterexample :
    get_probability [⟨1, 2, 1⟩] [] =
      [⟨1, 2, 1, none, none, none, none, none, none, none, none, 1/10⟩] := by
  have hjoin :
      joinFof (joinUser [⟨1, 2, 1⟩] []) [] =
        [⟨1, 2, 1, none, none, none, none, none, none, none, none⟩] := by decide
  rw [get_probability, hjoin, List.map_cons, List.map_nil,
    steps_eq_preClampScore]
  have hpre :
      preClampScore ⟨1, 2, 1, none, none, none, none, none, none, none, none⟩ =
        1/10 := by
    have h0 :
        preClampScore
            ⟨1, 2, 1, none, none, none, none, none, none, none, none⟩ =
          1/10 + 0 + 0 + 0 := rfl
    rw [h0]; norm_num
  rw [hpre]
  have hcl : step_clamp (1/10 : ℚ) = 1/10 := by norm_num [step_clamp]
  rw [hcl]
  rfl

/-- C8 amended: a row whose user and candidate both lack demographic records
is still emitted (the joins are left joins), with all demographic columns
`NULL` and the numerically computed probability `0.1` — there is no
null/incomplete marker in the output. -/
theorem c8_amended_missing_demo_row_still_emitted
    (recs : List RankedRow) (demo : List DemoRow) (r : RankedRow)
    (hr : r ∈ recs) (hu : ∀ d ∈ demo, d.ID ≠ r.user)
    (hf : ∀ d ∈ demo, d.ID ≠ r.fof) :
    (⟨r.user, r.fof, r.rank, none, none, none, none, none, none, none, none,
        1/10⟩ : ScoredRow) ∈ get_probability recs demo := by
  have hu2 : (demo.filter fun d => d.ID == r.user) = [] :=
    List.filter_eq_nil_iff.mpr fun d hd hb => hu d hd (by simpa using hb)
  have hf2 : (demo.filter fun d => d.ID == r.fof) = [] :=
    List.filter_eq_nil_iff.mpr fun d hd hb => hf d hd (by simpa using hb)
  have h1 : (⟨r.user, r.fof, r.rank, none, none, none, none⟩ : HalfRow) ∈
      joinUser recs demo := by
    apply List.mem_flatMap.mpr
    refine ⟨r, hr, ?_⟩
    rw [hu2]
    exact List.mem_singleton.mpr rfl
  have h2 : (⟨r.user, r.fof, r.rank, none, none, none, none, none, none, none,
      none⟩ : JoinedRow) ∈ joinFof (joinUser recs demo) demo := by
    apply List.mem_flatMap.mpr
    refine ⟨⟨r.user, r.fof, r.rank, none, none, none, none⟩, h1, ?_⟩
    rw [hf2]
    exact List.mem_singleton.mpr rfl
  apply List.mem_map.mpr
  refine ⟨⟨r.user, r.fof, r.rank, none, none, none, none, none, none, none,
    none⟩, h2, ?_⟩
  rw [steps_eq_preClampScore]
  have hpre :
      preClampScore
          (⟨r.user, r.fof, r.rank, none, none, none, none, none, none, none,
            none⟩ : JoinedRow) = 1/10 := by
    have h0 :
        preClampScore
            (⟨r.user, r.fof, r.rank, none, none, none, none, none, none, none,
              none⟩ : JoinedRow) = 1/10 + 0 + 0 + 0 := rfl
    rw [h0]; norm_num
  rw [hpre]
  have hcl : step_clamp (1/10 : ℚ) = 1/10 := by norm_num [step_clamp]
  rw [hcl]
  rfl

theorem c8_amended_missing_demo_witness :
    (⟨1, 2, 1, none, none, none, none, none, none, none, none, 1/10⟩ :
        ScoredRow) ∈
      get_probability [⟨1, 2, 1⟩] [⟨5, 0, 0, 0, 0⟩] :=
  c8_amended_missing_demo_row_still_emitted [⟨1, 2, 1⟩] [⟨5, 0, 0, 0, 0⟩]
    ⟨1, 2, 1⟩ (by decide) (by decide) (by decide)

/-- C10: when the demographics mapping has at most one record per `UserId`,
scoring emits exactly one output row per input row, in order, with the
`user`, `fof` and `rank` fields unchanged. -/
theorem c10_scoring_preserves_rows (recs : List RankedRow) (demo : List DemoRow)
    (hn : (demo.map DemoRow.ID).Nodup) :
    (get_probability recs demo).map (fun s => (s.user, s.fof, s.rank)) =
      recs.map fun r => (r.user, r.fof, r.rank) := by
  rw [get_probability, List.map_map]
  show (joinFof (joinUser recs demo) demo).map
      (fun j => (j.user, j.fof, j.rank)) = _
  rw [joinFof_triples hn, joinUser_triples hn]

theorem c10_scoring_preserves_witness :
    (([⟨7, 0, 0, 0, 0⟩] : List DemoRow).map DemoRow.ID).Nodup ∧
      (get_probability [⟨1, 2, 1⟩, ⟨1, 3, 2⟩] [⟨7, 0, 0, 0, 0⟩]).map
          (fun s => (s.user, s.fof, s.rank)) =
        ([⟨1, 2, 1⟩, ⟨1, 3, 2⟩] : List RankedRow).map fun r =>
          (r.user, r.fof, r.rank) :=
  ⟨by decide, c10_scoring_preserves_rows _ _ (by decide)⟩

/-! ## Helper lemmas: the formatter -/

lemma digitChar_ne_space {m : Nat} (h : m < 10) : Nat.digitChar m ≠ ' ' := by
  interval_cases m <;> decide

lemma head?_natDigitsRev (fuel n : Nat) :
    (natDigitsRev (fuel + 1) n).head? = some (Nat.digitChar (n % 10)) := by
  rw [natDigitsRev]
  split_ifs with h
  · simp [Nat.mod_eq_of_lt h]
  · rfl

lemma pyNatStr_getLast? (n : Nat) :
    (pyNatStr n).getLast? = some (Nat.digitChar (n % 10)) := by
  rw [pyNatStr, List.getLast?_reverse, head?_natDigitsRev]

lemma pyIntStr_getLast? (i : Int) :
    (pyIntStr i).getLast? = some (Nat.digitChar (i.natAbs % 10)) := by
  unfold pyIntStr
  split_ifs with h
  · rw [show ('-' :: pyNatStr i.natAbs) = ['-'] ++ pyNatStr i.natAbs from rfl,
      List.getLast?_append, pyNatStr_getLast?]
    rfl
  · exact pyNatStr_getLast? _

lemma pyIntStr_getLast_ne_space (i : Int) : (pyIntStr i).getLast? ≠ some ' ' := by
  rw [pyIntStr_getLast?]
  intro h
  exact digitChar_ne_space (Nat.mod_lt _ (by omega)) (Option.some.injEq .. ▸ h)

lemma formatNoProb_getLast? (r : RankedRow) :
    (formatNoProb r).getLast? = (pyIntStr r.fof).getLast? := by
  rw [formatNoProb,
    show (' ' :: pyIntStr r.fof) = [' '] ++ pyIntStr r.fof from rfl,
    List.getLast?_append, List.getLast?_append, pyIntStr_getLast?]
  rfl

lemma tenthsStr_getLast? (q : ℚ) :
    (tenthsStr q).getLast? = (pyIntStr (q.num * 10 / (q.den : Int) % 10)).getLast? := by
  rw [tenthsStr,
    show ('.' :: pyIntStr (q.num * 10 / (q.den : Int) % 10)) =
      ['.'] ++ pyIntStr (q.num * 10 / (q.den : Int) % 10) from rfl,
    List.getLast?_append, List.getLast?_append, pyIntStr_getLast?]
  rfl

lemma formatProb_getLast? (s : ScoredRow) :
    (formatProb s).getLast? =
      (pyIntStr (s.probability.num * 10 / (s.probability.den : Int) % 10)).getLast? := by
  rw [formatProb,
    show (',' :: ' ' :: tenthsStr s.probability) =
      [',', ' '] ++ tenthsStr s.probability from rfl,
    List.getLast?_append, List.getLast?_append, tenthsStr_getLast?,
    pyIntStr_getLast?]
  rfl

/-! ## Claim about the formatter -/

/-- C9: the output has exactly one line per recommendation and no header; in
no-probability mode every line is exactly `"<user> <fof>"`, in probability
mode exactly `"<user> <fof>, <probability>"`, and no line carries trailing
whitespace (every line ends in a decimal digit). -/
theorem c9_output_line_format (rk : List RankedRow) (sc : List ScoredRow) :
    (result_lines_no_secondary rk).length = rk.length ∧
      (result_lines_secondary sc).length = sc.length ∧
      (∀ l ∈ result_lines_no_secondary rk,
        (∃ r ∈ rk, l = pyIntStr r.user ++ ' ' :: pyIntStr r.fof) ∧
          l.getLast? ≠ some ' ') ∧
      (∀ l ∈ result_lines_secondary sc,
        (∃ s ∈ sc, l = pyIntStr s.user ++ ' ' :: pyIntStr s.fof ++
            ',' :: ' ' :: tenthsStr s.probability) ∧
          l.getLast? ≠ some ' ') := by
  refine ⟨by simp [result_lines_no_secondary], by simp [result_lines_secondary],
    ?_, ?_⟩
  · intro l hl
    rcases List.mem_map.mp hl with ⟨r, hr, rfl⟩
    refine ⟨⟨r, hr, rfl⟩, ?_⟩
    rw [formatNoProb_getLast?]
    exact pyIntStr_getLast_ne_space _
  · intro l hl
    rcases List.mem_map.mp hl with ⟨s, hs, rfl⟩
    refine ⟨⟨s, hs, rfl⟩, ?_⟩
    rw [formatProb_getLast?]
    exact pyIntStr_getLast_ne_space _

theorem c9_output_line_witness :
    (result_lines_no_secondary [⟨1, 2, 1⟩]).length = 1 ∧
      (result_lines_secondary
          [⟨1, 2, 1, none, none, none, none, none, none, none, none,
            mkRat 1 2⟩]).length = 1 ∧
      (['1', ' ', '2'] : List Char) ∈ result_lines_no_secondary [⟨1, 2, 1⟩] ∧
      (['1', ' ', '2', ',', ' ', '0', '.', '5'] : List Char) ∈
        result_lines_secondary
          [⟨1, 2, 1, none, none, none, none, none, none, none, none,
            mkRat 1 2⟩] ∧
      (['1', ' ', '2'] : List Char).getLast? ≠ some ' ' ∧
      (['1', ' ', '2', ',', ' ', '0', '.', '5'] : List Char).getLast? ≠
        some ' ' :=
  ⟨(c9_output_line_format [⟨1, 2, 1⟩] []).1,
    (c9_output_line_format []
      [⟨1, 2, 1, none, none, none, none, none, none, none, none,
        mkRat 1 2⟩]).2.1,
    by decide, by decide,
    ((c9_output_line_format [⟨1, 2, 1⟩] []).2.2.1 _ (by decide)).2,
    ((c9_output_line_format []
      [⟨1, 2, 1, none, none, none, none, none, none, none, none,
        mkRat 1 2⟩]).2.2.2 _ (by decide)).2⟩

/-- C6: ranking orders by the aggregated `common_friends` value, which the
source computes as the sum of intermediate friend identifiers.  On the
relation `{1: [2, 3, 100], 2: [1, 50], 3: [1, 50], 100: [1, 60]}` with
`N = 1`, candidate `50` has two distinct common friends with user `1` while
candidate `60` has one, yet the code ranks `60` first (sum `100` beats sum
`2 + 3 = 5`), contradicting the claimed ordering by common-friend count. -/
theorem c6_ranking_follows_id_sum_not_count :
    ((⟨1, 60, 1⟩ : RankedRow) ∈
        top_n_recommendations
          [⟨1, [2, 3, 100]⟩, ⟨2, [1, 50]⟩, ⟨3, [1, 50]⟩, ⟨100, [1, 60]⟩] 1) ∧
      ((⟨1, 50, 1⟩ : RankedRow) ∉
        top_n_recommendations
          [⟨1, [2, 3, 100]⟩, ⟨2, [1, 50]⟩, ⟨3, [1, 50]⟩, ⟨100, [1, 60]⟩] 1) ∧
      specCommonFriendCount
          [⟨1, [2, 3, 100]⟩, ⟨2, [1, 50]⟩, ⟨3, [1, 50]⟩, ⟨100, [1, 60]⟩] 1 50 = 2 ∧
      specCommonFriendCount
          [⟨1, [2, 3, 100]⟩, ⟨2, [1, 50]⟩, ⟨3, [1, 50]⟩, ⟨100, [1, 60]⟩] 1 60 = 1 := by
  decide

end FriendRec
